import Mathlib

/-!
Shallow embedding of the heading-inference engine of process_pdfs.py.

Modelling conventions:
* Python floats (font sizes, thresholds, ratios) are modelled by exact
  rationals; the literals 1.1, 1.3, 0.3, 0.7 of the source become 11/10,
  13/10, 3/10, 7/10.  No claim sits on a binary-float boundary.
* Python strings are modelled by Lean strings over their ASCII fragment:
  the regex class backslash-w becomes isWordChar, backslash-d becomes
  Char.isDigit, backslash-s becomes Char.isWhitespace, str.strip becomes
  String.trim, str.split() becomes pyWords.
* round(x, 1) becomes round1, rounding 10*x to the nearest integer.
-/

/-- Models the Python regex class backslash-w (ASCII fragment):
letters, digits and the underscore. -/
def isWordChar (c : Char) : Bool :=
  c.isAlphanum || c = '_'

/-- Uppercase ASCII letter, the regex class A-Z. -/
def isUpperAZ (c : Char) : Bool :=
  'A' ≤ c && c ≤ 'Z'

/-- Characters kept by the second substitution of clean_text, the allow-list
of the regex: word characters, whitespace, and the listed punctuation. -/
def pyAllowedChar (c : Char) : Bool :=
  isWordChar c || c.isWhitespace || c = '-' || c = '.' || c = ',' || c = ':' ||
    c = ';' || c = '!' || c = '?' || c = '(' || c = ')' || c = '[' || c = ']' ||
    c = '/' || c = '"' || c = Char.ofNat 39 || c = '&'

/-- Drops leading and trailing whitespace from a character list. -/
def pyStripList (cs : List Char) : List Char :=
  ((cs.dropWhile Char.isWhitespace).reverse.dropWhile Char.isWhitespace).reverse

/-- Models Python str.strip(): remove whitespace at both ends. -/
def pyStrip (t : String) : String :=
  String.mk (pyStripList t.toList)

/-- Collapses every maximal run of whitespace to a single space, as the
substitution re.sub of one-or-more whitespace by a space does.  The flag
records whether the previous character was whitespace. -/
def squeezeWsAux : Bool → List Char → List Char
  | _, [] => []
  | prevWs, c :: cs =>
    if c.isWhitespace then
      if prevWs then squeezeWsAux true cs else ' ' :: squeezeWsAux true cs
    else c :: squeezeWsAux false cs

/-- clean_text of process_pdfs.py: on empty input return the empty string;
otherwise strip, collapse whitespace runs to single spaces, and delete every
character outside the allow-list. -/
def clean_text (t : String) : String :=
  if t = "" then ""
  else String.mk ((squeezeWsAux false (pyStripList t.toList)).filter pyAllowedChar)

/-- Maximal runs of non-whitespace characters, accumulated in reverse in
the first argument. -/
def wordsAux (cur : List Char) : List Char → List (List Char)
  | [] => if cur = [] then [] else [cur.reverse]
  | c :: cs =>
    if c.isWhitespace then
      if cur = [] then wordsAux [] cs else cur.reverse :: wordsAux [] cs
    else wordsAux (c :: cur) cs

/-- Models Python str.split() with no separator: the maximal whitespace-free
runs of the string, empty pieces dropped. -/
def pyWords (t : String) : List String :=
  (wordsAux [] t.toList).map String.mk

/-- Number of digit characters of the text, the length of re.findall
of backslash-d over it. -/
def digitCount (t : String) : Nat :=
  (t.toList.filter Char.isDigit).length

/-- One repetition of the group (digits, optional dot, whitespace) of the
first heading pattern.  Returns the unconsumed rest on success. -/
def matchGroupNumbered (cs : List Char) : Option (List Char) :=
  let afterDigits := cs.dropWhile Char.isDigit
  if afterDigits.length = cs.length then none
  else
    let afterDot :=
      match afterDigits with
      | c :: rest => if c = '.' then rest else afterDigits
      | [] => []
    some (afterDot.dropWhile Char.isWhitespace)

/-- Prefix match of the pattern of numbered sections (one or more groups of
digits, optional dot, optional whitespace).  As a prefix match it succeeds
exactly when a single repetition of the group succeeds, the later
repetitions of the plus being optional. -/
def matchesNumbered (cs : List Char) : Bool :=
  (matchGroupNumbered cs).isSome

/-- Full match of the ALL-CAPS pattern: an uppercase ASCII letter followed
by at least two characters, each an uppercase ASCII letter or whitespace,
reaching the end of the string. -/
def matchesAllCaps : List Char → Bool
  | [] => false
  | c :: rest =>
    isUpperAZ c && decide (rest.length ≥ 2) &&
      rest.all (fun d => isUpperAZ d || d.isWhitespace)

/-- After one of the keywords: at least one whitespace character, then a
digit. -/
def kwNumRest (rest : List Char) : Bool :=
  match rest with
  | c :: _ =>
    c.isWhitespace &&
      (match rest.dropWhile Char.isWhitespace with
       | d :: _ => d.isDigit
       | [] => false)
  | [] => false

/-- Prefix match of the Chapter/Section/Part/Appendix pattern: one of the
four keywords, whitespace, then a digit. -/
def matchesKwNum (cs : List Char) : Bool :=
  ([("Chapter" : String), ("Section" : String), ("Part" : String),
      ("Appendix" : String)]).any fun kw =>
    kw.toList.isPrefixOf cs && kwNumRest (cs.drop kw.toList.length)

/-- Roman-numeral character of the class IVX. -/
def isRomanChar (c : Char) : Bool :=
  c = 'I' || c = 'V' || c = 'X'

/-- Prefix match of the Roman-numeral pattern: one or more characters of
IVX, a dot, then at least one whitespace character. -/
def matchesRoman (cs : List Char) : Bool :=
  let rest := cs.dropWhile isRomanChar
  decide (rest.length ≠ cs.length) &&
    (match rest with
     | c :: rest2 =>
       c == '.' && (match rest2 with
                    | d :: _ => d.isWhitespace
                    | [] => false)
     | [] => false)

/-- Full match of the word-colon pattern: one or more word characters,
optional whitespace, then a colon ending the string. -/
def matchesWordColon (cs : List Char) : Bool :=
  (match cs with
   | c :: _ => isWordChar c
   | [] => false) &&
    (match (cs.dropWhile isWordChar).dropWhile Char.isWhitespace with
     | [c] => c == ':'
     | _ => false)

/-- has_heading_pattern of is_likely_heading: any of the five patterns
matches the stripped text. -/
def has_heading_pattern (t : String) : Bool :=
  let cs := pyStripList t.toList
  matchesNumbered cs || matchesAllCaps cs || matchesKwNum cs ||
    matchesRoman cs || matchesWordColon cs

/-- First character of the word is an uppercase letter, the Python test
word[0].isupper(). -/
def startsUpper (w : String) : Bool :=
  match w.toList with
  | c :: _ => c.isUpper
  | [] => false

/-- Title-case heuristic of is_likely_heading: for texts of at least two
words, at least 70 percent of the words start with an uppercase letter. -/
def isTitleCase (t : String) : Bool :=
  let words := pyWords t
  if words.length ≥ 2 then
    decide ((((words.filter startsUpper).length : ℚ) / (words.length : ℚ)) ≥ 7/10)
  else false

/-- Score of is_likely_heading: the sum of the fixed weights of the six
signals (large font, significantly larger font, bold, structural pattern,
title case, brevity). -/
def heading_score (text : String) (font_size : ℚ) (is_bold : Bool)
    (avg_font_size : ℚ) : Nat :=
  (if font_size ≥ avg_font_size * (11/10) then 2 else 0) +
  (if font_size ≥ avg_font_size * (13/10) then 2 else 0) +
  (if is_bold then 2 else 0) +
  (if has_heading_pattern text then 3 else 0) +
  (if isTitleCase text then 1 else 0) +
  (if (pyWords text).length ≤ 8 then 1 else 0)

/-- is_likely_heading of process_pdfs.py: the three pre-filters (nonempty
stripped text of length at least 3, at most 20 words, digit ratio at most
3/10) followed by the score threshold of 3. -/
def is_likely_heading (text : String) (font_size : ℚ) (is_bold : Bool)
    (avg_font_size : ℚ) : Bool :=
  if text = "" then false
  else if (pyStrip text).length < 3 then false
  else if (pyWords text).length > 20 then false
  else if ((digitCount text : ℚ) / (text.length : ℚ)) > 3/10 then false
  else decide (heading_score text font_size is_bold avg_font_size ≥ 3)

example : clean_text ("  Hello   World  ") = "Hello World" := by decide
example : clean_text ("a @ b") = "a  b" := by decide
example : is_likely_heading ("INTRODUCTION") 24 false 12 = true := by
  with_unfolding_all decide
example : heading_score ("INTRODUCTION") 24 false 12 = 8 := by
  with_unfolding_all decide
example : is_likely_heading ("2023 2024 2025 2026") 99 true 1 = false := by
  with_unfolding_all decide

/-- round(x, 1) of Python: round 10 times the value to the nearest integer
and divide by 10.  (Python breaks exact ties to even; no input of this
development sits on a tie.) -/
def round1 (x : ℚ) : ℚ :=
  ((round (10 * x) : ℤ) : ℚ) / 10

/-- Substring test on character lists: the needle occurs contiguously in
the haystack, as the Python operator in on strings. -/
def containsSub (needle hay : List Char) : Bool :=
  hay.tails.any (fun t => needle.isPrefixOf t)

/-- Python substring operator: needle in hay. -/
def strContains (hay needle : String) : Bool :=
  containsSub needle.toList hay.toList

/-- Python str.lower() over the ASCII fragment. -/
def pyLower (t : String) : String :=
  String.mk (t.toList.map Char.toLower)

/-- One positioned text span handed to the engine by the PDF reader:
raw text, 1-indexed page, bounding-box position, raw font size, font name. -/
structure Span where
  text : String
  page : Nat
  x : ℚ
  y : ℚ
  size : ℚ
  font : String
deriving Repr, DecidableEq

/-- Font statistics of extract_font_statistics.  The unused key
most_common_font of the source dict is not consumed by any later stage and
is omitted from the model. -/
structure FontStats where
  avg_font_size : ℚ
  all_sizes : List ℚ
deriving Repr

/-- The filter of extract_font_statistics: the stripped text is truthy and
longer than 2 characters. -/
def qualifiesForStats (s : Span) : Bool :=
  pyStrip s.text ≠ "" && (pyStrip s.text).length > 2

/-- extract_font_statistics of process_pdfs.py: collect the rounded size of
every qualifying span; the average defaults to 12 when no span qualifies;
all_sizes is the set of collected sizes sorted descending. -/
def extract_font_statistics (spans : List Span) : FontStats :=
  let font_sizes := (spans.filter qualifiesForStats).map (fun s => round1 s.size)
  { avg_font_size :=
      if font_sizes.isEmpty then 12
      else font_sizes.sum / (font_sizes.length : ℚ),
    all_sizes := List.insertionSort (· ≥ ·) font_sizes.dedup }

/-- Bold test of extract_outline: Bold occurs in the font name, or bold in
its lowercase form. -/
def pyIsBold (font : String) : Bool :=
  strContains font ("Bold") || strContains (pyLower font) ("bold")

/-- Italic test of extract_outline. -/
def pyIsItalic (font : String) : Bool :=
  strContains font ("Italic") || strContains (pyLower font) ("italic")

/-- One record of the text_blocks list of extract_outline: cleaned text,
page, position, rounded size, font name and derived style flags. -/
structure Block where
  text : String
  page : Nat
  x : ℚ
  y : ℚ
  size : ℚ
  font : String
  bold : Bool
  italic : Bool
deriving Repr, DecidableEq

/-- The block built from a span in the extraction loop of extract_outline. -/
def toBlock (s : Span) : Block :=
  { text := clean_text s.text, page := s.page, x := s.x, y := s.y,
    size := round1 s.size, font := s.font,
    bold := pyIsBold s.font, italic := pyIsItalic s.font }

/-- The text_blocks list of extract_outline: every span whose cleaned text
is truthy and at least 3 characters long, in document order. -/
def text_blocks (spans : List Span) : List Block :=
  (spans.map toBlock).filter (fun b => b.text ≠ "" && b.text.length ≥ 3)

/-- A heading with its assigned level, the block after determine_heading_levels
attached its level field. -/
structure LeveledBlock where
  block : Block
  level : String
deriving Repr, DecidableEq

/-- The distinct sizes of the headings, sorted descending, as the
sorted_sizes list of determine_heading_levels. -/
def sortedSizesDesc (hs : List Block) : List ℚ :=
  List.insertionSort (· ≥ ·) ((hs.map Block.size).dedup)

/-- Walks the sorted sizes with the level counter of
determine_heading_levels: the first six sizes receive H1 to H6 and every
other size falls back to the default H6 of the dict lookup. -/
def levelFor : List ℚ → Nat → ℚ → String
  | [], _, _ => "H6"
  | a :: rest, counter, s =>
    if counter ≤ 6 then
      if a = s then "H" ++ toString counter else levelFor rest (counter + 1) s
    else "H6"

/-- determine_heading_levels of process_pdfs.py: group the headings by
rounded size, order the distinct sizes descending, map the first six to
H1 to H6, and give every heading the level of its size (H6 when the size
is beyond the sixth). -/
def determine_heading_levels (hs : List Block) : List LeveledBlock :=
  let sizes := sortedSizesDesc hs
  hs.map (fun h => ⟨h, levelFor sizes 1 h.size⟩)

/-- A candidate of the geometry fallback of extract_title_from_pdf. -/
structure TitleCandidate where
  text : String
  size : ℚ
  y : ℚ
  bold : Bool
deriving Repr, DecidableEq

/-- The candidate list of the geometry fallback: page-1 spans whose cleaned
text is truthy, has at least 2 words and at least 10 characters.  The size
kept here is the raw span size, not the rounded one. -/
def titleCandidates (spans : List Span) : List TitleCandidate :=
  spans.filterMap (fun s =>
    let t := clean_text s.text
    if t ≠ "" ∧ (pyWords t).length ≥ 2 ∧ t.length ≥ 10 then
      some ⟨t, s.size, s.y, strContains s.font ("Bold")⟩
    else none)

/-- Order of the Python sort key (-size, y): larger size first, then
smaller vertical position. -/
def titleLe (a b : TitleCandidate) : Prop :=
  b.size < a.size ∨ (a.size = b.size ∧ a.y ≤ b.y)

instance : DecidableRel titleLe := fun a b => by
  unfold titleLe; infer_instance

instance : IsTotal TitleCandidate titleLe := by
  constructor
  intro a b
  rcases lt_trichotomy a.size b.size with h | h | h
  · exact Or.inr (Or.inl h)
  · rcases le_total a.y b.y with hy | hy
    · exact Or.inl (Or.inr ⟨h, hy⟩)
    · exact Or.inr (Or.inr ⟨h.symm, hy⟩)
  · exact Or.inl (Or.inl h)

instance : IsTrans TitleCandidate titleLe := by
  constructor
  intro a b c hab hbc
  rcases hab with h1 | ⟨h1, hy1⟩
  · rcases hbc with h2 | ⟨h2, _⟩
    · exact Or.inl (h2.trans h1)
    · exact Or.inl (h2 ▸ h1)
  · rcases hbc with h2 | ⟨h2, hy2⟩
    · exact Or.inl (h1 ▸ h2)
    · exact Or.inr ⟨h1.trans h2, hy1.trans hy2⟩

/-- The near-duplicate test of extract_title_from_pdf: the two candidates
lie within 10 vertical units and one lowercased text contains the other. -/
def isDuplicateOf (cand existing : TitleCandidate) : Bool :=
  decide (|cand.y - existing.y| < 10) &&
    (containsSub (pyLower cand.text).toList (pyLower existing.text).toList ||
     containsSub (pyLower existing.text).toList (pyLower cand.text).toList)

/-- The filtering loop of extract_title_from_pdf: keep a candidate unless
an already kept one makes it a near duplicate. -/
def suppressAux (acc : List TitleCandidate) : List TitleCandidate → List TitleCandidate
  | [] => acc
  | c :: rest =>
    if acc.any (fun e => isDuplicateOf c e) then suppressAux acc rest
    else suppressAux (acc ++ [c]) rest

/-- The filtered_candidates list of extract_title_from_pdf. -/
def suppressDuplicates (l : List TitleCandidate) : List TitleCandidate :=
  suppressAux [] l

/-- Strategy 2 of extract_title_from_pdf: sort the page-1 candidates by
descending size then ascending vertical position, suppress near
duplicates, and return the first survivor; the literal fallback otherwise. -/
def extract_title_geometry (pageOneSpans : List Span) : String :=
  let candidates := titleCandidates pageOneSpans
  if candidates.isEmpty then "Untitled Document"
  else
    let sorted := List.insertionSort titleLe candidates
    match (suppressDuplicates sorted).head? with
    | some c => c.text
    | none => "Untitled Document"

/-- extract_title_from_pdf of process_pdfs.py: the metadata title when its
stripped form is truthy and longer than 3 characters, the page-1 geometry
fallback otherwise. -/
def extract_title_from_pdf (metadataTitle : String) (pageOneSpans : List Span) : String :=
  let metadata_title := pyStrip metadataTitle
  if metadata_title ≠ "" ∧ metadata_title.length > 3 then clean_text metadata_title
  else extract_title_geometry pageOneSpans

/-- Variant of the geometry fallback without the near-duplicate
suppression step: it returns the first sorted candidate directly.  Written
for the refinement comparison of the two resolvers. -/
def extract_title_geometry_nosuppress (pageOneSpans : List Span) : String :=
  let candidates := titleCandidates pageOneSpans
  if candidates.isEmpty then "Untitled Document"
  else
    match (List.insertionSort titleLe candidates).head? with
    | some c => c.text
    | none => "Untitled Document"

/-- One entry of the final outline. -/
structure OutlineEntry where
  level : String
  text : String
  page : Nat
deriving Repr, DecidableEq

/-- The result of processing one document. -/
structure DocumentResult where
  title : String
  outline : List OutlineEntry
deriving Repr, DecidableEq

/-- Order of the final sort of extract_outline, the key (page, y). -/
def blockLe (a b : LeveledBlock) : Prop :=
  a.block.page < b.block.page ∨ (a.block.page = b.block.page ∧ a.block.y ≤ b.block.y)

instance : DecidableRel blockLe := fun a b => by
  unfold blockLe; infer_instance

/-- extract_outline of process_pdfs.py over the span list of a document:
document-wide font statistics, block extraction, classification against
the document average, level assignment, reading-order sort, title
resolution over the page-1 spans, and projection to the outline entries. -/
def extract_outline (metadataTitle : String) (spans : List Span) : DocumentResult :=
  let font_stats := extract_font_statistics spans
  let avg_font_size := font_stats.avg_font_size
  let headings := (text_blocks spans).filter
    (fun b => is_likely_heading b.text b.size b.bold avg_font_size)
  let headings_with_levels := determine_heading_levels headings
  let sortedHeadings := List.insertionSort blockLe headings_with_levels
  let title := extract_title_from_pdf metadataTitle (spans.filter (fun s => s.page = 1))
  { title := title,
    outline := sortedHeadings.map (fun h => ⟨h.level, h.block.text, h.block.page⟩) }

example :
    extract_outline ("") [⟨"INTRODUCTION", 1, 0, 50, 24, "Helvetica"⟩] =
      ⟨"Untitled Document", [⟨"H1", "INTRODUCTION", 1⟩]⟩ := by
  with_unfolding_all decide

/-- Document of the end-to-end example: the single page-1 span INTRODUCTION
at size 24 plus ten page-2 body spans at size 10.8, so that the document
average font size is exactly 12. -/
def C1doc : List Span :=
  ⟨"INTRODUCTION", 1, 72, 50, 24, "Helvetica"⟩ ::
    (List.range 10).map (fun i =>
      ⟨"the quick brown fox jumps over the lazy dog sleeping today",
        2, 72, 100 + 20 * (i : ℚ), 54/5, "Times-Roman"⟩)

/-- C1: for a document whose only page-1 span is INTRODUCTION at size 24
with document average font size 12, the classifier score is 8 (size at
least 1.1 times the average gives 2, at least 1.3 times gives 2, the
ALL-CAPS pattern gives 3, at most 8 words gives 1), the span is accepted
as a heading, and as the only heading candidate it receives level H1. -/
theorem C1_allcaps_span_is_H1 :
    heading_score ("INTRODUCTION") 24 false 12 = 8 ∧
    is_likely_heading ("INTRODUCTION") 24 false 12 = true ∧
    (extract_font_statistics C1doc).avg_font_size = 12 ∧
    (extract_outline ("") C1doc).outline = [⟨"H1", "INTRODUCTION", 1⟩] := by
  with_unfolding_all decide

/-- The digit-ratio pre-filter of is_likely_heading forces rejection
whatever the remaining attributes are. -/
theorem heading_reject_of_digits (text : String) (font_size : ℚ)
    (is_bold : Bool) (avg_font_size : ℚ)
    (h : ((digitCount text : ℚ) / ((text.length : ℚ))) > 3/10) :
    is_likely_heading text font_size is_bold avg_font_size = false := by
  unfold is_likely_heading
  split_ifs <;> rfl

/-- C6: a span whose ratio of digit characters to total characters exceeds
3/10 is rejected by is_likely_heading regardless of font size, boldness or
any other attribute; in particular the four-year text 2023 2024 2025 2026
(16 digits out of 19 characters) is always rejected. -/
theorem C6_digit_ratio_rejection (text : String) (font_size : ℚ)
    (is_bold : Bool) (avg_font_size : ℚ)
    (h : ((digitCount text : ℚ) / ((text.length : ℚ))) > 3/10) :
    is_likely_heading text font_size is_bold avg_font_size = false ∧
    is_likely_heading ("2023 2024 2025 2026") font_size is_bold avg_font_size = false :=
  ⟨heading_reject_of_digits _ _ _ _ h,
   heading_reject_of_digits _ _ _ _ (by with_unfolding_all decide)⟩

theorem C6_witness :
    ((digitCount ("2023 2024 2025 2026") : ℚ) /
        ((("2023 2024 2025 2026" : String).length : ℚ)) > 3/10) ∧
    is_likely_heading ("2023 2024 2025 2026") 99 true 1 = false :=
  ⟨by with_unfolding_all decide,
   (C6_digit_ratio_rejection ("2023 2024 2025 2026") 99 true 1
      (by with_unfolding_all decide)).1⟩

/-- C10: a span that passes the three pre-filters and is bold with at most
8 words is accepted by is_likely_heading regardless of its font size
relative to the document average: boldness contributes 2 and brevity 1,
reaching the acceptance threshold of 3. -/
theorem C10_bold_brief_accepted (text : String) (font_size : ℚ) (avg_font_size : ℚ)
    (h0 : text ≠ "") (h1 : (pyStrip text).length ≥ 3)
    (h2 : ((digitCount text : ℚ) / ((text.length : ℚ))) ≤ 3/10)
    (h3 : (pyWords text).length ≤ 8) :
    is_likely_heading text font_size true avg_font_size = true := by
  unfold is_likely_heading
  rw [if_neg h0, if_neg (by omega : ¬ (pyStrip text).length < 3),
    if_neg (by omega : ¬ (pyWords text).length > 20), if_neg (not_lt.mpr h2),
    decide_eq_true_eq]
  unfold heading_score
  simp only [eq_self_iff_true, if_true]
  split_ifs <;> omega

theorem C10_witness :
    (("Methods" : String) ≠ "" ∧ (pyStrip ("Methods")).length ≥ 3 ∧
      ((digitCount ("Methods") : ℚ) / ((("Methods" : String).length : ℚ))) ≤ 3/10 ∧
      (pyWords ("Methods")).length ≤ 8) ∧
    is_likely_heading ("Methods") 5 true 12 = true :=
  ⟨by with_unfolding_all decide,
   C10_bold_brief_accepted ("Methods") 5 12 (by decide) (by decide)
     (by with_unfolding_all decide) (by decide)⟩

/-- C4 counterexample: the metadata title formed by four at-signs and hi
survives the length check of the source (stripped length 6 exceeds 3) even
though its normalized form hi has length 2, at most 3; the resolver
returns hi instead of falling through to the page-1 geometry, which would
have returned the page-1 candidate text. -/
theorem C4_counterexample :
    clean_text ("@@@@hi") = "hi" ∧
    (clean_text ("@@@@hi")).length ≤ 3 ∧
    extract_title_from_pdf ("@@@@hi")
        [⟨"A Wonderful Treatise on Logic", 1, 0, 30, 20, "Helvetica"⟩] = "hi" ∧
    extract_title_geometry
        [⟨"A Wonderful Treatise on Logic", 1, 0, 30, 20, "Helvetica"⟩] =
      "A Wonderful Treatise on Logic" ∧
    ("hi" : String) ≠ "A Wonderful Treatise on Logic" := by
  with_unfolding_all decide

/-- C4 amended: the Title Resolver returns the normalized metadata title
exactly when the STRIPPED metadata title is non-empty and longer than 3
characters (the length check of the source precedes normalization), and
falls through to the page-1 geometry otherwise. -/
theorem C4_metadata_title (metadataTitle : String) (pageOneSpans : List Span) :
    (pyStrip metadataTitle ≠ "" ∧ (pyStrip metadataTitle).length > 3 →
      extract_title_from_pdf metadataTitle pageOneSpans =
        clean_text (pyStrip metadataTitle)) ∧
    (¬(pyStrip metadataTitle ≠ "" ∧ (pyStrip metadataTitle).length > 3) →
      extract_title_from_pdf metadataTitle pageOneSpans =
        extract_title_geometry pageOneSpans) := by
  constructor
  · intro h
    unfold extract_title_from_pdf
    rw [if_pos h]
  · intro h
    unfold extract_title_from_pdf
    rw [if_neg h]

theorem C4_witness :
    (pyStrip ("Hello World") ≠ "" ∧ (pyStrip ("Hello World")).length > 3) ∧
    extract_title_from_pdf ("Hello World") [] = "Hello World" :=
  ⟨by decide,
   ((C4_metadata_title ("Hello World") []).1 (by decide)).trans (by decide)⟩

/-- Two-span document separating the two qualifying notions: the span of
four at-signs qualifies for the statistics of the source (stripped length
4) but not for the notion of the claim (its normalized text is empty),
and the size 7.16 is changed to 7.2 by the rounding of the source. -/
def C5spans : List Span :=
  [⟨"@@@@", 1, 0, 0, 20, "F"⟩, ⟨"abc", 1, 0, 10, 716/100, "F"⟩]

/-- C5 counterexample: on C5spans the collector of the source returns the
average 13.6 (both spans qualify by stripped length and the sizes are
rounded to 20 and 7.2), while the mean of the raw sizes of the spans
qualifying by normalized length is 7.16; the two disagree. -/
theorem C5_counterexample :
    ((C5spans.filter (fun s => decide ((clean_text s.text).length > 2))).map Span.size).sum /
        (((C5spans.filter (fun s => decide ((clean_text s.text).length > 2))).length : ℚ)) =
      716/100 ∧
    (extract_font_statistics C5spans).avg_font_size = 68/5 ∧
    ((68 : ℚ)/5) ≠ 716/100 := by
  with_unfolding_all decide

/-- C5 amended: avg_font_size is the arithmetic mean of the sizes rounded
to one decimal of the spans whose STRIPPED text is non-empty and longer
than 2 characters, and is 12 when no span qualifies. -/
theorem C5_avg_of_rounded_sizes (spans : List Span) :
    (spans.filter qualifiesForStats = [] →
      (extract_font_statistics spans).avg_font_size = 12) ∧
    (spans.filter qualifiesForStats ≠ [] →
      (extract_font_statistics spans).avg_font_size *
          (((spans.filter qualifiesForStats).length : ℚ)) =
        ((spans.filter qualifiesForStats).map (fun s => round1 s.size)).sum) := by
  constructor
  · intro h
    simp [extract_font_statistics, h]
  · intro h
    have hne : ((spans.filter qualifiesForStats).map (fun s => round1 s.size)).isEmpty = false := by
      simp only [List.isEmpty_eq_false, ne_eq, List.map_eq_nil_iff]
      exact h
    have hlen : (((spans.filter qualifiesForStats).length : ℚ)) ≠ 0 := by
      simp only [ne_eq, Nat.cast_eq_zero, List.length_eq_zero]
      exact h
    simp only [extract_font_statistics, hne, Bool.false_eq_true, if_false, List.length_map]
    rw [div_mul_cancel₀]
    exact hlen

theorem C5_witness :
    (([] : List Span).filter qualifiesForStats = [] ∧
      (extract_font_statistics []).avg_font_size = 12) ∧
    (C5spans.filter qualifiesForStats ≠ [] ∧
      (extract_font_statistics C5spans).avg_font_size *
          ((C5spans.filter qualifiesForStats).length : ℚ) =
        ((C5spans.filter qualifiesForStats).map (fun s => round1 s.size)).sum) :=
  ⟨⟨rfl, (C5_avg_of_rounded_sizes []).1 rfl⟩,
   ⟨by with_unfolding_all decide,
    (C5_avg_of_rounded_sizes C5spans).2 (by with_unfolding_all decide)⟩⟩

/-- Collapsing whitespace never lengthens a character list. -/
theorem squeezeWsAux_length_le (b : Bool) (cs : List Char) :
    (squeezeWsAux b cs).length ≤ cs.length := by
  induction cs generalizing b with
  | nil => simp [squeezeWsAux]
  | cons c cs ih =>
    unfold squeezeWsAux
    split_ifs
    · exact Nat.le_succ_of_le (ih true)
    · simpa using Nat.succ_le_succ (ih true)
    · simpa using Nat.succ_le_succ (ih false)

/-- Normalization never lengthens the text beyond its stripped form. -/
theorem clean_text_length_le (t : String) :
    (clean_text t).length ≤ (pyStrip t).length := by
  unfold clean_text pyStrip
  split_ifs with h
  · exact Nat.zero_le _
  · show ((squeezeWsAux false (pyStripList t.toList)).filter pyAllowedChar).length ≤
      (pyStripList t.toList).length
    exact (List.length_filter_le _ _).trans (squeezeWsAux_length_le _ _)

/-- C7: a document with no metadata title all of whose spans normalize to
fewer than 3 characters (in particular, a document with zero qualifying
spans) processes without error into the untitled result with an empty
outline. -/
theorem C7_empty_document (metadataTitle : String) (spans : List Span)
    (hmd : metadataTitle = "")
    (hq : ∀ s ∈ spans, (clean_text s.text).length < 3) :
    extract_outline metadataTitle spans = ⟨"Untitled Document", []⟩ := by
  subst hmd
  have hblocks : text_blocks spans = [] := by
    unfold text_blocks
    rw [List.filter_eq_nil_iff]
    intro b hb
    rcases List.mem_map.mp hb with ⟨s, hs, rfl⟩
    have hlt := hq s hs
    simp only [toBlock, Bool.and_eq_true, decide_eq_true_eq, ne_eq, not_and]
    intro _
    omega
  have htitle :
      extract_title_from_pdf ("") (spans.filter (fun s => s.page = 1)) =
        "Untitled Document" := by
    unfold extract_title_from_pdf
    rw [if_neg (by decide : ¬(pyStrip ("") ≠ "" ∧ (pyStrip ("")).length > 3))]
    unfold extract_title_geometry
    have hc : titleCandidates (spans.filter (fun s => s.page = 1)) = [] := by
      unfold titleCandidates
      rw [List.filterMap_eq_nil_iff]
      intro s hs
      have hmem : s ∈ spans := (List.mem_filter.mp hs).1
      have hlt := hq s hmem
      rw [if_neg]
      rintro ⟨-, -, hlen⟩
      omega
    rw [hc]
    rfl
  simp only [extract_outline]
  rw [hblocks, htitle]
  rfl

theorem C7_witness :
    (∀ s ∈ [(⟨"ab", 1, 0, 0, 50, "Big-Bold"⟩ : Span), ⟨" @@@@ ", 2, 0, 0, 60, "F"⟩],
      (clean_text s.text).length < 3) ∧
    extract_outline ("") [(⟨"ab", 1, 0, 0, 50, "Big-Bold"⟩ : Span), ⟨" @@@@ ", 2, 0, 0, 60, "F"⟩] =
      ⟨"Untitled Document", []⟩ :=
  ⟨by decide, C7_empty_document ("") _ rfl (by decide)⟩

/-- C8: two documents carrying the same valid metadata title (non-empty and
longer than 3 characters after normalization) resolve to the same title,
however their page-1 spans differ. -/
theorem C8_metadata_noninterference (metadataTitle : String) (spans1 spans2 : List Span)
    (h1 : clean_text metadataTitle ≠ "")
    (h2 : (clean_text metadataTitle).length > 3) :
    extract_title_from_pdf metadataTitle spans1 =
      extract_title_from_pdf metadataTitle spans2 := by
  have hlen : (pyStrip metadataTitle).length > 3 :=
    lt_of_lt_of_le h2 (clean_text_length_le metadataTitle)
  have hne : pyStrip metadataTitle ≠ "" := by
    intro he
    rw [he] at hlen
    exact absurd hlen (by decide)
  unfold extract_title_from_pdf
  rw [if_pos ⟨hne, hlen⟩, if_pos ⟨hne, hlen⟩]

theorem C8_witness :
    (clean_text ("Hello World") ≠ "" ∧ (clean_text ("Hello World")).length > 3) ∧
    extract_title_from_pdf ("Hello World") [] =
      extract_title_from_pdf ("Hello World")
        [⟨"Some Other Large Title Here", 1, 0, 0, 33, "F"⟩] :=
  ⟨by decide,
   C8_metadata_noninterference ("Hello World") _ _ (by decide) (by decide)⟩

instance : IsTotal ℚ (· ≥ ·) := ⟨fun a b => le_total b a⟩

instance : IsTrans ℚ (· ≥ ·) := ⟨fun _ _ _ h1 h2 => le_trans h2 h1⟩

/-- Closed form of the level walk: the level is determined by the position
of the size in the sorted list and the starting counter, saturating at H6. -/
theorem levelFor_eq (l : List ℚ) (c : Nat) (s : ℚ) :
    levelFor l c s =
      if s ∈ l ∧ l.indexOf s + c ≤ 6 then "H" ++ toString (l.indexOf s + c)
      else "H6" := by
  induction l generalizing c with
  | nil => simp [levelFor]
  | cons a rest ih =>
    unfold levelFor
    by_cases hc : c ≤ 6
    · rw [if_pos hc]
      by_cases has : a = s
      · subst has
        rw [if_pos rfl]
        have h0 : List.indexOf a (a :: rest) = 0 := List.indexOf_cons_self a rest
        rw [if_pos ⟨List.mem_cons_self a rest, by rw [h0]; omega⟩, h0, Nat.zero_add]
      · rw [if_neg has, ih (c + 1)]
        have hidx : List.indexOf s (a :: rest) = List.indexOf s rest + 1 :=
          List.indexOf_cons_ne rest has
        have hmem : (s ∈ a :: rest) ↔ (s ∈ rest) := by
          constructor
          · intro h
            rcases List.mem_cons.mp h with h | h
            · exact absurd h.symm has
            · exact h
          · exact fun h => List.mem_cons_of_mem a h
        rw [hidx]
        have harith : List.indexOf s rest + (c + 1) = List.indexOf s rest + 1 + c := by
          omega
        rw [harith]
        exact if_congr (and_congr_left' hmem.symm) rfl rfl
    · rw [if_neg hc, if_neg]
      rintro ⟨-, hle⟩
      omega

/-- Membership in the leveled list comes from a block of the input list
tagged with the level of its size. -/
theorem mem_determine (hs : List Block) (lb : LeveledBlock)
    (h : lb ∈ determine_heading_levels hs) :
    lb.block ∈ hs ∧ lb.level = levelFor (sortedSizesDesc hs) 1 lb.block.size := by
  simp only [determine_heading_levels] at h
  rcases List.mem_map.mp h with ⟨b, hb, rfl⟩
  exact ⟨hb, rfl⟩

/-- The size of every input block occurs in the sorted size list. -/
theorem mem_sortedSizesDesc {hs : List Block} {b : Block} (hb : b ∈ hs) :
    b.size ∈ sortedSizesDesc hs := by
  unfold sortedSizesDesc
  rw [(List.perm_insertionSort _ _).mem_iff]
  exact List.mem_dedup.mpr (List.mem_map_of_mem _ hb)

/-- The sorted size list is descending. -/
theorem sortedSizesDesc_sorted (hs : List Block) :
    (sortedSizesDesc hs).Sorted (· ≥ ·) :=
  List.sorted_insertionSort _ _

/-- The sorted size list has no duplicates. -/
theorem sortedSizesDesc_nodup (hs : List Block) : (sortedSizesDesc hs).Nodup := by
  unfold sortedSizesDesc
  exact ((List.perm_insertionSort _ _).nodup_iff).mpr (List.nodup_dedup _)

/-- In a descending list a strictly larger member sits strictly earlier. -/
theorem indexOf_lt_of_gt (l : List ℚ) (hsort : l.Sorted (· ≥ ·))
    (x y : ℚ) (hx : x ∈ l) (hy : y ∈ l) (hxy : y < x) :
    l.indexOf x < l.indexOf y := by
  rcases Nat.lt_trichotomy (l.indexOf x) (l.indexOf y) with h | h | h
  · exact h
  · exfalso
    have h1 : l.indexOf x < l.length := List.indexOf_lt_length.mpr hx
    have h2 : l.indexOf y < l.length := List.indexOf_lt_length.mpr hy
    have hxg : l.get ⟨l.indexOf x, h1⟩ = x := List.indexOf_get h1
    have hyg : l.get ⟨l.indexOf y, h2⟩ = y := List.indexOf_get h2
    have hxy' : x = y := by
      rw [← hxg, ← hyg]
      congr 1
      exact Fin.ext h
    exact absurd hxy' (ne_of_gt hxy)
  · exfalso
    have h1 : l.indexOf x < l.length := List.indexOf_lt_length.mpr hx
    have h2 : l.indexOf y < l.length := List.indexOf_lt_length.mpr hy
    have hrel := hsort.rel_get_of_lt
      (a := ⟨l.indexOf y, h2⟩) (b := ⟨l.indexOf x, h1⟩) (Fin.mk_lt_mk.mpr h)
    rw [List.indexOf_get h2, List.indexOf_get h1] at hrel
    exact absurd hrel (not_le.mpr hxy)

/-- Ordinal of a level string: H1 to H5 map to 1 to 5 and everything else,
H6 included, to 6. -/
def levelOrdinal (lv : String) : Nat :=
  if lv = "H1" then 1 else if lv = "H2" then 2 else if lv = "H3" then 3
  else if lv = "H4" then 4 else if lv = "H5" then 5 else 6

/-- The ordinal of an assigned level is the rank of the size capped at 6. -/
theorem levelOrdinal_levelFor (l : List ℚ) (s : ℚ) (hmem : s ∈ l) :
    levelOrdinal (levelFor l 1 s) = min (l.indexOf s + 1) 6 := by
  rw [levelFor_eq]
  by_cases h : l.indexOf s + 1 ≤ 6
  · rw [if_pos ⟨hmem, h⟩]
    have hmin : min (l.indexOf s + 1) 6 = l.indexOf s + 1 := by omega
    rw [hmin]
    have hk6 : l.indexOf s ≤ 5 := by omega
    set k := l.indexOf s with hk
    clear_value k
    interval_cases k <;> decide
  · rw [if_neg (by rintro ⟨-, hh⟩; exact h hh)]
    have hmin : min (l.indexOf s + 1) 6 = 6 := by omega
    rw [hmin]
    decide

/-- C2: the Level Resolver keeps every candidate (in order), assigns only
levels among H1 to H6, gives a candidate whose size has rank below 6 in
the descending distinct-size list the level of that rank, and saturates
every candidate of rank 6 or beyond at H6 instead of dropping it. -/
theorem C2_level_saturation (hs : List Block) (lb : LeveledBlock)
    (hmem : lb ∈ determine_heading_levels hs) :
    (determine_heading_levels hs).map LeveledBlock.block = hs ∧
    lb.level ∈ (["H1", "H2", "H3", "H4", "H5", "H6"] : List String) ∧
    ((sortedSizesDesc hs).indexOf lb.block.size < 6 →
      lb.level = "H" ++ toString ((sortedSizesDesc hs).indexOf lb.block.size + 1)) ∧
    (6 ≤ (sortedSizesDesc hs).indexOf lb.block.size → lb.level = "H6") := by
  obtain ⟨hb, hlevel⟩ := mem_determine hs lb hmem
  have hsize : lb.block.size ∈ sortedSizesDesc hs := mem_sortedSizesDesc hb
  refine ⟨?_, ?_, ?_, ?_⟩
  · simp only [determine_heading_levels, List.map_map]
    exact List.map_id _
  · rw [hlevel, levelFor_eq]
    by_cases h : (sortedSizesDesc hs).indexOf lb.block.size + 1 ≤ 6
    · rw [if_pos ⟨hsize, h⟩]
      have hk6 : (sortedSizesDesc hs).indexOf lb.block.size ≤ 5 := by omega
      set k := (sortedSizesDesc hs).indexOf lb.block.size with hk
      clear_value k
      interval_cases k <;> decide
    · rw [if_neg (by rintro ⟨-, hh⟩; exact h hh)]
      decide
  · intro hlt
    rw [hlevel, levelFor_eq, if_pos ⟨hsize, by omega⟩]
  · intro hge
    rw [hlevel, levelFor_eq, if_neg (by rintro ⟨-, hh⟩; omega)]

/-- Seven heading blocks with seven distinct sizes in descending order. -/
def hs7 : List Block :=
  [⟨"Alpha", 1, 0, 0, 70, "F", false, false⟩,
   ⟨"Beta", 1, 0, 10, 60, "F", false, false⟩,
   ⟨"Gamma", 1, 0, 20, 50, "F", false, false⟩,
   ⟨"Delta", 1, 0, 30, 40, "F", false, false⟩,
   ⟨"Epsilon", 1, 0, 40, 30, "F", false, false⟩,
   ⟨"Zeta", 1, 0, 50, 20, "F", false, false⟩,
   ⟨"Eta", 1, 0, 60, 10, "F", false, false⟩]

/-- The seventh-ranked block of hs7 as it appears in the leveled output:
saturated at H6. -/
def lb7 : LeveledBlock := ⟨⟨"Eta", 1, 0, 60, 10, "F", false, false⟩, "H6"⟩

theorem C2_witness :
    (lb7 ∈ determine_heading_levels hs7) ∧
    ((determine_heading_levels hs7).map LeveledBlock.block = hs7 ∧
      lb7.level ∈ (["H1", "H2", "H3", "H4", "H5", "H6"] : List String) ∧
      ((sortedSizesDesc hs7).indexOf lb7.block.size < 6 →
        lb7.level = "H" ++ toString ((sortedSizesDesc hs7).indexOf lb7.block.size + 1)) ∧
      (6 ≤ (sortedSizesDesc hs7).indexOf lb7.block.size → lb7.level = "H6")) :=
  ⟨by with_unfolding_all decide, C2_level_saturation hs7 lb7 (by with_unfolding_all decide)⟩

/-- C3: for two candidates of the same run, a strictly larger font size
never receives a deeper level (the level ordinal is antitone in the size),
and candidates with identical size always receive the same level. -/
theorem C3_level_monotone_in_size (hs : List Block) (a b : LeveledBlock)
    (ha : a ∈ determine_heading_levels hs) (hb : b ∈ determine_heading_levels hs) :
    (b.block.size < a.block.size →
      levelOrdinal a.level ≤ levelOrdinal b.level) ∧
    (a.block.size = b.block.size → a.level = b.level) := by
  obtain ⟨hba, hla⟩ := mem_determine hs a ha
  obtain ⟨hbb, hlb⟩ := mem_determine hs b hb
  have hma : a.block.size ∈ sortedSizesDesc hs := mem_sortedSizesDesc hba
  have hmb : b.block.size ∈ sortedSizesDesc hs := mem_sortedSizesDesc hbb
  constructor
  · intro hlt
    have hidx : (sortedSizesDesc hs).indexOf a.block.size <
        (sortedSizesDesc hs).indexOf b.block.size :=
      indexOf_lt_of_gt _ (sortedSizesDesc_sorted hs) _ _ hma hmb hlt
    rw [hla, hlb, levelOrdinal_levelFor _ _ hma, levelOrdinal_levelFor _ _ hmb]
    omega
  · intro heq
    rw [hla, hlb, heq]

/-- Two heading blocks with sizes 20 and 10. -/
def hs3 : List Block :=
  [⟨"Large Head", 1, 0, 0, 20, "F", false, false⟩,
   ⟨"Small Head", 1, 0, 10, 10, "F", false, false⟩]

/-- The larger block of hs3 with its level. -/
def lbA : LeveledBlock := ⟨⟨"Large Head", 1, 0, 0, 20, "F", false, false⟩, "H1"⟩

/-- The smaller block of hs3 with its level. -/
def lbB : LeveledBlock := ⟨⟨"Small Head", 1, 0, 10, 10, "F", false, false⟩, "H2"⟩

theorem C3_witness :
    (lbA ∈ determine_heading_levels hs3) ∧
    (lbB ∈ determine_heading_levels hs3) ∧
    ((lbB.block.size < lbA.block.size →
        levelOrdinal lbA.level ≤ levelOrdinal lbB.level) ∧
      (lbA.block.size = lbB.block.size → lbA.level = lbB.level)) :=
  ⟨by with_unfolding_all decide, by with_unfolding_all decide,
   C3_level_monotone_in_size hs3 lbA lbB (by with_unfolding_all decide)
     (by with_unfolding_all decide)⟩

/-- The filtering loop never changes the first already-accepted candidate. -/
theorem suppressAux_head? (l : List TitleCandidate) :
    ∀ acc : List TitleCandidate, acc ≠ [] → (suppressAux acc l).head? = acc.head? := by
  induction l with
  | nil => intro acc _; rfl
  | cons c rest ih =>
    intro acc hacc
    unfold suppressAux
    split_ifs
    · exact ih acc hacc
    · rw [ih (acc ++ [c]) (by simp)]
      cases acc with
      | nil => exact absurd rfl hacc
      | cons a as => rfl

/-- The first surviving candidate of the suppression loop is the first
candidate of its input. -/
theorem suppressDuplicates_head? (l : List TitleCandidate) :
    (suppressDuplicates l).head? = l.head? := by
  cases l with
  | nil => rfl
  | cons c rest =>
    unfold suppressDuplicates suppressAux
    simp only [List.any_nil, Bool.false_eq_true, if_false, List.nil_append]
    rw [suppressAux_head? rest [c] (by simp)]
    rfl

/-- C9: the near-duplicate suppression step of the geometry fallback never
changes the returned title - the resolver equals the variant that returns
the first sorted candidate directly - and whenever at least one page-1
candidate qualifies the returned title is the text of a candidate of
maximal font size, ties broken by smallest vertical position. -/
theorem C9_suppression_is_noop (pageOneSpans : List Span) :
    extract_title_geometry pageOneSpans =
      extract_title_geometry_nosuppress pageOneSpans ∧
    (titleCandidates pageOneSpans ≠ [] →
      ∃ c ∈ titleCandidates pageOneSpans,
        extract_title_geometry pageOneSpans = c.text ∧
        ∀ b ∈ titleCandidates pageOneSpans,
          b.size ≤ c.size ∧ (b.size = c.size → c.y ≤ b.y)) := by
  have hmain : extract_title_geometry pageOneSpans =
      extract_title_geometry_nosuppress pageOneSpans := by
    simp only [extract_title_geometry, extract_title_geometry_nosuppress]
    rw [suppressDuplicates_head?]
  refine ⟨hmain, fun hne => ?_⟩
  have hperm := List.perm_insertionSort titleLe (titleCandidates pageOneSpans)
  have hsne : List.insertionSort titleLe (titleCandidates pageOneSpans) ≠ [] := by
    intro h
    rw [h] at hperm
    exact hne hperm.symm.eq_nil
  obtain ⟨c, rest, hsort⟩ :
      ∃ c rest, List.insertionSort titleLe (titleCandidates pageOneSpans) = c :: rest := by
    cases hs : List.insertionSort titleLe (titleCandidates pageOneSpans) with
    | nil => exact absurd hs hsne
    | cons c rest => exact ⟨c, rest, rfl⟩
  have hcmem : c ∈ titleCandidates pageOneSpans :=
    hperm.subset (hsort ▸ List.mem_cons_self c rest)
  refine ⟨c, hcmem, ?_, ?_⟩
  · simp only [extract_title_geometry]
    rw [if_neg (by simp only [List.isEmpty_eq_true]; exact hne),
      suppressDuplicates_head?, hsort]
    rfl
  · have hsorted := List.sorted_insertionSort titleLe (titleCandidates pageOneSpans)
    rw [hsort] at hsorted
    intro b hb
    have hbmem : b ∈ c :: rest := by
      rw [← hsort]
      exact hperm.symm.subset hb
    rcases List.mem_cons.mp hbmem with rfl | hbr
    · exact ⟨le_refl _, fun _ => le_refl _⟩
    · have hrel : titleLe c b := (List.sorted_cons.mp hsorted).1 b hbr
      rcases hrel with hlt | ⟨heq, hy⟩
      · refine ⟨le_of_lt hlt, fun hbc => ?_⟩
        rw [hbc] at hlt
        exact absurd hlt (lt_irrefl _)
      · exact ⟨le_of_eq heq.symm, fun _ => hy⟩

/-- Two page-1 spans both qualifying as title candidates, the larger lower
on the page. -/
def spansW9 : List Span :=
  [⟨"Alpha Beta Gamma Delta", 1, 0, 40, 18, "F"⟩,
   ⟨"Epsilon Zeta Eta Theta", 1, 0, 20, 22, "F"⟩]

theorem C9_witness :
    (titleCandidates spansW9 ≠ []) ∧
    extract_title_geometry spansW9 = extract_title_geometry_nosuppress spansW9 ∧
    (∃ c ∈ titleCandidates spansW9,
      extract_title_geometry spansW9 = c.text ∧
      ∀ b ∈ titleCandidates spansW9,
        b.size ≤ c.size ∧ (b.size = c.size → c.y ≤ b.y)) :=
  ⟨by with_unfolding_all decide, (C9_suppression_is_noop spansW9).1,
   (C9_suppression_is_noop spansW9).2 (by with_unfolding_all decide)⟩
